import Mathlib

/-!
Verification of the strlen range/length library.

The embedding follows src/native/strlen/src/lib.rs. Machine isize values
are modelled as unbounded Int; where overflow semantics matter, a separate
two's-complement wrapping model (wrap64) is used. Text is modelled as a
list of extended grapheme clusters, each a nonempty list of Unicode scalar
values, so that the four measurements (UTF-8 bytes, scalar values,
clusters, UTF-16 units) are all computable from one value.
-/

/-- Linear range in one encoding, mirroring Rust struct SLRange
with fields start, stop, length, step (all isize). -/
structure SLRange where
  start : Int
  stop : Int
  length : Int
  step : Int
  deriving Repr, DecidableEq

/-- Rust SLRange::from_sta_len: stop is start + len - 1, step is 1. -/
def SLRange.from_sta_len (start len : Int) : SLRange :=
  { start := start, length := len, stop := start + len - 1, step := 1 }

/-- Rust SLRange::from_sta_sto: length is stop - start + 1, step is 1. -/
def SLRange.from_sta_sto (start stop : Int) : SLRange :=
  { start := start, stop := stop, length := stop - start + 1, step := 1 }

/-- Composite range: one SLRange per encoding, mirroring SLStringRange. -/
structure SLStringRange where
  byte : SLRange
  code : SLRange
  char : SLRange
  utf16 : SLRange
  deriving Repr, DecidableEq

/-- The four-way length measurement, mirroring Rust struct SLLength. -/
structure SLLength where
  byte : Int
  code : Int
  char : Int
  utf16 : Int
  deriving Repr, DecidableEq

/-- Rust SLStringRange::zero: four zero-length ranges at position 0. -/
def SLStringRange.zero : SLStringRange :=
  { byte := SLRange.from_sta_len 0 0
    code := SLRange.from_sta_len 0 0
    char := SLRange.from_sta_len 0 0
    utf16 := SLRange.from_sta_len 0 0 }

/-- Rust SLStringRange::from_point: same start for all four encodings,
lengths taken from the measurement. -/
def SLStringRange.from_point (point : Int) (len : SLLength) : SLStringRange :=
  { byte := SLRange.from_sta_len point len.byte
    code := SLRange.from_sta_len point len.code
    char := SLRange.from_sta_len point len.char
    utf16 := SLRange.from_sta_len point len.utf16 }

/-- Rust SLStringRange::from_range: each sub-range starts right after the
prior corresponding sub-range, lengths taken from the measurement. -/
def SLStringRange.from_range (range : SLStringRange) (len : SLLength) : SLStringRange :=
  { byte := SLRange.from_sta_len (range.byte.stop + 1) len.byte
    code := SLRange.from_sta_len (range.code.stop + 1) len.code
    char := SLRange.from_sta_len (range.char.stop + 1) len.char
    utf16 := SLRange.from_sta_len (range.utf16.stop + 1) len.utf16 }

/-- Rust SLStringRange::replace: same starts as the existing range, new
lengths from the measurement. -/
def SLStringRange.replace (range : SLStringRange) (len : SLLength) : SLStringRange :=
  { byte := SLRange.from_sta_len range.byte.start len.byte
    code := SLRange.from_sta_len range.code.start len.code
    char := SLRange.from_sta_len range.char.start len.char
    utf16 := SLRange.from_sta_len range.utf16.start len.utf16 }

/-- Rust SLStringRange::shift_after: same lengths as the range, restarted
right after the corresponding sub-range of prev. -/
def SLStringRange.shift_after (range prev : SLStringRange) : SLStringRange :=
  { byte := SLRange.from_sta_len (prev.byte.stop + 1) range.byte.length
    code := SLRange.from_sta_len (prev.code.stop + 1) range.code.length
    char := SLRange.from_sta_len (prev.char.stop + 1) range.char.length
    utf16 := SLRange.from_sta_len (prev.utf16.stop + 1) range.utf16.length }

/-- The measurement whose four fields are the four sub-range lengths of a
composite range; used to relate shift_after to from_range. -/
def SLStringRange.lengths (r : SLStringRange) : SLLength :=
  { byte := r.byte.length, code := r.code.length
    char := r.char.length, utf16 := r.utf16.length }

/-- Text value: a list of extended grapheme clusters, each a list of
Unicode scalar values. Segmentation into clusters is taken as given, as
the Rust code delegates it to the unicode-segmentation crate. -/
abbrev SLText := List (List Char)

/-- Well-formed text: every grapheme cluster holds at least one scalar. -/
def SLText.WF (s : SLText) : Prop := ∀ c ∈ s, c ≠ []

/-- Number of UTF-8 bytes a scalar value occupies (Rust str is UTF-8). -/
def utf8CharLen (c : Char) : Nat :=
  if c.toNat < 128 then 1
  else if c.toNat < 2048 then 2
  else if c.toNat < 65536 then 3
  else 4

/-- Number of UTF-16 code units a scalar value occupies. -/
def utf16CharLen (c : Char) : Nat :=
  if c.toNat < 65536 then 1 else 2

/-- Rust SLLength::new: byte is s.len() over the UTF-8 form, code counts
scalar values, char counts grapheme clusters, utf16 counts UTF-16 units. -/
def SLLength.new (s : SLText) : SLLength :=
  { byte := ((s.flatten.map utf8CharLen).sum : Nat)
    code := (s.flatten.length : Nat)
    char := (s.length : Nat)
    utf16 := ((s.flatten.map utf16CharLen).sum : Nat) }

/-- Rust SLLength::zero. -/
def SLLength.zero : SLLength := { byte := 0, code := 0, char := 0, utf16 := 0 }

namespace Native

/-- NIF range_from_point: the point argument is optional, defaulting 0. -/
def range_from_point (len : SLLength) (point : Option Int) : SLStringRange :=
  SLStringRange.from_point (point.getD 0) len

/-- NIF range_from_range. -/
def range_from_range (len : SLLength) (range : SLStringRange) : SLStringRange :=
  SLStringRange.from_range range len

/-- NIF ranges: folds from_range over the segments, threading each
produced range as the predecessor of the next, collecting all results. -/
def ranges (strings : List SLText) (r : SLStringRange) : List SLStringRange :=
  match strings with
  | [] => []
  | sect :: rest =>
      let new_range := SLStringRange.from_range r (SLLength.new sect)
      new_range :: ranges rest new_range

/-- NIF length. -/
def length (s : SLText) : SLLength := SLLength.new s

/-- NIF replace. -/
def replace (range : SLStringRange) (s : SLText) : SLStringRange :=
  SLStringRange.replace range (SLLength.new s)

/-- NIF shift_after. -/
def shift_after (range prev : SLStringRange) : SLStringRange :=
  SLStringRange.shift_after range prev

end Native

/-- Two's-complement wrap of an integer into the 64-bit signed range,
modelling Rust release-mode isize overflow behaviour. -/
def wrap64 (x : Int) : Int := (x + 2 ^ 63) % 2 ^ 64 - 2 ^ 63

/-- SLRange::from_sta_len with isize release semantics: the two additions
in start + len - 1 each wrap on overflow, and no error is signalled. -/
def SLRange.from_sta_len_isize (start len : Int) : SLRange :=
  { start := start, length := len
    stop := wrap64 (wrap64 (start + len) - 1), step := 1 }

theorem wrap64_eq_self (x : Int) (h1 : -(2 ^ 63) ≤ x) (h2 : x < 2 ^ 63) :
    wrap64 x = x := by
  unfold wrap64
  rw [Int.emod_eq_of_lt (by omega) (by omega)]
  omega

/-- C4: both SLRange constructors satisfy length = stop - start + 1 and
stop = start + length - 1 with step 1; length 0 gives stop = start - 1,
and from_sta_len start len equals from_sta_sto start (start + len - 1). -/
theorem slrange_constructors_invariant (start len stop : Int) :
    (SLRange.from_sta_len start len).length =
      (SLRange.from_sta_len start len).stop - (SLRange.from_sta_len start len).start + 1
    ∧ (SLRange.from_sta_len start len).stop =
      (SLRange.from_sta_len start len).start + (SLRange.from_sta_len start len).length - 1
    ∧ (SLRange.from_sta_sto start stop).length =
      (SLRange.from_sta_sto start stop).stop - (SLRange.from_sta_sto start stop).start + 1
    ∧ (SLRange.from_sta_sto start stop).stop =
      (SLRange.from_sta_sto start stop).start + (SLRange.from_sta_sto start stop).length - 1
    ∧ (SLRange.from_sta_len start len).step = 1
    ∧ (SLRange.from_sta_sto start stop).step = 1
    ∧ (len = 0 → (SLRange.from_sta_len start len).stop = start - 1)
    ∧ SLRange.from_sta_len start len = SLRange.from_sta_sto start (start + len - 1) := by
  refine ⟨?_, ?_, ?_, ?_, rfl, rfl, fun h => ?_, ?_⟩ <;>
    simp [SLRange.from_sta_len, SLRange.from_sta_sto, SLRange.mk.injEq] <;> omega

/-- Witness for C4 at start 5, len 0: the empty range stops at 4. -/
theorem slrange_constructors_invariant_witness :
    (SLRange.from_sta_len 5 0).stop = 5 - 1 :=
  (slrange_constructors_invariant 5 0 0).2.2.2.2.2.2.1 rfl

/-- C2: from_range starts each of the four sub-ranges right after the
corresponding sub-range of the prior composite range, with the length
taken from the corresponding field of the measurement. -/
theorem from_range_appends (R : SLStringRange) (M : SLLength) :
    ((SLStringRange.from_range R M).byte.start = R.byte.stop + 1
      ∧ (SLStringRange.from_range R M).byte.length = M.byte)
    ∧ ((SLStringRange.from_range R M).code.start = R.code.stop + 1
      ∧ (SLStringRange.from_range R M).code.length = M.code)
    ∧ ((SLStringRange.from_range R M).char.start = R.char.stop + 1
      ∧ (SLStringRange.from_range R M).char.length = M.char)
    ∧ ((SLStringRange.from_range R M).utf16.start = R.utf16.stop + 1
      ∧ (SLStringRange.from_range R M).utf16.length = M.utf16) :=
  ⟨⟨rfl, rfl⟩, ⟨rfl, rfl⟩, ⟨rfl, rfl⟩, ⟨rfl, rfl⟩⟩

/-- C9: from_point uses the point verbatim as the start of all four
sub-ranges with lengths from the measurement, and the NIF wrapper
defaults a missing point to 0. -/
theorem from_point_uniform_start (p : Int) (M : SLLength) :
    ((SLStringRange.from_point p M).byte.start = p
      ∧ (SLStringRange.from_point p M).byte.length = M.byte)
    ∧ ((SLStringRange.from_point p M).code.start = p
      ∧ (SLStringRange.from_point p M).code.length = M.code)
    ∧ ((SLStringRange.from_point p M).char.start = p
      ∧ (SLStringRange.from_point p M).char.length = M.char)
    ∧ ((SLStringRange.from_point p M).utf16.start = p
      ∧ (SLStringRange.from_point p M).utf16.length = M.utf16)
    ∧ (∀ len : SLLength, Native.range_from_point len none = SLStringRange.from_point 0 len)
    ∧ (∀ len : SLLength, ∀ q : Int,
        Native.range_from_point len (some q) = SLStringRange.from_point q len) :=
  ⟨⟨rfl, rfl⟩, ⟨rfl, rfl⟩, ⟨rfl, rfl⟩, ⟨rfl, rfl⟩, fun _ => rfl, fun _ _ => rfl⟩

/-- C6: replace keeps all four sub-range starts of the existing range and
only stop and length change: lengths become the measurement fields and,
when the existing steps are 1 as produced by the constructors, steps are
unchanged as well. -/
theorem replace_keeps_starts (R : SLStringRange) (M : SLLength)
    (hb : R.byte.step = 1) (hc : R.code.step = 1)
    (hh : R.char.step = 1) (hu : R.utf16.step = 1) :
    ((SLStringRange.replace R M).byte.start = R.byte.start
      ∧ (SLStringRange.replace R M).code.start = R.code.start
      ∧ (SLStringRange.replace R M).char.start = R.char.start
      ∧ (SLStringRange.replace R M).utf16.start = R.utf16.start)
    ∧ ((SLStringRange.replace R M).byte.length = M.byte
      ∧ (SLStringRange.replace R M).code.length = M.code
      ∧ (SLStringRange.replace R M).char.length = M.char
      ∧ (SLStringRange.replace R M).utf16.length = M.utf16)
    ∧ ((SLStringRange.replace R M).byte.step = R.byte.step
      ∧ (SLStringRange.replace R M).code.step = R.code.step
      ∧ (SLStringRange.replace R M).char.step = R.char.step
      ∧ (SLStringRange.replace R M).utf16.step = R.utf16.step) :=
  ⟨⟨rfl, rfl, rfl, rfl⟩, ⟨rfl, rfl, rfl, rfl⟩,
    ⟨hb.symm, hc.symm, hh.symm, hu.symm⟩⟩

/-- Witness for C6 at the zero range and measurement 1, 2, 3, 4. -/
theorem replace_keeps_starts_witness :
    ((SLStringRange.replace SLStringRange.zero ⟨1, 2, 3, 4⟩).byte.start
        = SLStringRange.zero.byte.start
      ∧ (SLStringRange.replace SLStringRange.zero ⟨1, 2, 3, 4⟩).code.start
        = SLStringRange.zero.code.start
      ∧ (SLStringRange.replace SLStringRange.zero ⟨1, 2, 3, 4⟩).char.start
        = SLStringRange.zero.char.start
      ∧ (SLStringRange.replace SLStringRange.zero ⟨1, 2, 3, 4⟩).utf16.start
        = SLStringRange.zero.utf16.start)
    ∧ ((SLStringRange.replace SLStringRange.zero ⟨1, 2, 3, 4⟩).byte.length = 1
      ∧ (SLStringRange.replace SLStringRange.zero ⟨1, 2, 3, 4⟩).code.length = 2
      ∧ (SLStringRange.replace SLStringRange.zero ⟨1, 2, 3, 4⟩).char.length = 3
      ∧ (SLStringRange.replace SLStringRange.zero ⟨1, 2, 3, 4⟩).utf16.length = 4)
    ∧ ((SLStringRange.replace SLStringRange.zero ⟨1, 2, 3, 4⟩).byte.step
        = SLStringRange.zero.byte.step
      ∧ (SLStringRange.replace SLStringRange.zero ⟨1, 2, 3, 4⟩).code.step
        = SLStringRange.zero.code.step
      ∧ (SLStringRange.replace SLStringRange.zero ⟨1, 2, 3, 4⟩).char.step
        = SLStringRange.zero.char.step
      ∧ (SLStringRange.replace SLStringRange.zero ⟨1, 2, 3, 4⟩).utf16.step
        = SLStringRange.zero.utf16.step) :=
  replace_keeps_starts SLStringRange.zero ⟨1, 2, 3, 4⟩ rfl rfl rfl rfl

/-- C7: shift_after keeps all four sub-range lengths of the shifted range
and only start and stop change: each start becomes the predecessor stop
plus one and, when the shifted steps are 1 as produced by the
constructors, steps are unchanged as well. -/
theorem shift_after_keeps_lengths (R P : SLStringRange)
    (hb : R.byte.step = 1) (hc : R.code.step = 1)
    (hh : R.char.step = 1) (hu : R.utf16.step = 1) :
    ((SLStringRange.shift_after R P).byte.length = R.byte.length
      ∧ (SLStringRange.shift_after R P).code.length = R.code.length
      ∧ (SLStringRange.shift_after R P).char.length = R.char.length
      ∧ (SLStringRange.shift_after R P).utf16.length = R.utf16.length)
    ∧ ((SLStringRange.shift_after R P).byte.start = P.byte.stop + 1
      ∧ (SLStringRange.shift_after R P).code.start = P.code.stop + 1
      ∧ (SLStringRange.shift_after R P).char.start = P.char.stop + 1
      ∧ (SLStringRange.shift_after R P).utf16.start = P.utf16.stop + 1)
    ∧ ((SLStringRange.shift_after R P).byte.step = R.byte.step
      ∧ (SLStringRange.shift_after R P).code.step = R.code.step
      ∧ (SLStringRange.shift_after R P).char.step = R.char.step
      ∧ (SLStringRange.shift_after R P).utf16.step = R.utf16.step) :=
  ⟨⟨rfl, rfl, rfl, rfl⟩, ⟨rfl, rfl, rfl, rfl⟩,
    ⟨hb.symm, hc.symm, hh.symm, hu.symm⟩⟩

/-- Witness for C7 at two concrete constructed ranges. -/
theorem shift_after_keeps_lengths_witness :
    ((SLStringRange.shift_after (SLStringRange.from_point 7 ⟨1, 2, 3, 4⟩)
        SLStringRange.zero).byte.length = 1
      ∧ (SLStringRange.shift_after (SLStringRange.from_point 7 ⟨1, 2, 3, 4⟩)
        SLStringRange.zero).code.length = 2
      ∧ (SLStringRange.shift_after (SLStringRange.from_point 7 ⟨1, 2, 3, 4⟩)
        SLStringRange.zero).char.length = 3
      ∧ (SLStringRange.shift_after (SLStringRange.from_point 7 ⟨1, 2, 3, 4⟩)
        SLStringRange.zero).utf16.length = 4)
    ∧ ((SLStringRange.shift_after (SLStringRange.from_point 7 ⟨1, 2, 3, 4⟩)
        SLStringRange.zero).byte.start = SLStringRange.zero.byte.stop + 1
      ∧ (SLStringRange.shift_after (SLStringRange.from_point 7 ⟨1, 2, 3, 4⟩)
        SLStringRange.zero).code.start = SLStringRange.zero.code.stop + 1
      ∧ (SLStringRange.shift_after (SLStringRange.from_point 7 ⟨1, 2, 3, 4⟩)
        SLStringRange.zero).char.start = SLStringRange.zero.char.stop + 1
      ∧ (SLStringRange.shift_after (SLStringRange.from_point 7 ⟨1, 2, 3, 4⟩)
        SLStringRange.zero).utf16.start = SLStringRange.zero.utf16.stop + 1)
    ∧ ((SLStringRange.shift_after (SLStringRange.from_point 7 ⟨1, 2, 3, 4⟩)
        SLStringRange.zero).byte.step
        = (SLStringRange.from_point 7 ⟨1, 2, 3, 4⟩).byte.step
      ∧ (SLStringRange.shift_after (SLStringRange.from_point 7 ⟨1, 2, 3, 4⟩)
        SLStringRange.zero).code.step
        = (SLStringRange.from_point 7 ⟨1, 2, 3, 4⟩).code.step
      ∧ (SLStringRange.shift_after (SLStringRange.from_point 7 ⟨1, 2, 3, 4⟩)
        SLStringRange.zero).char.step
        = (SLStringRange.from_point 7 ⟨1, 2, 3, 4⟩).char.step
      ∧ (SLStringRange.shift_after (SLStringRange.from_point 7 ⟨1, 2, 3, 4⟩)
        SLStringRange.zero).utf16.step
        = (SLStringRange.from_point 7 ⟨1, 2, 3, 4⟩).utf16.step) :=
  shift_after_keeps_lengths (SLStringRange.from_point 7 ⟨1, 2, 3, 4⟩)
    SLStringRange.zero rfl rfl rfl rfl

/-- C10: shift_after R P equals from_range applied to P and the
measurement holding the four sub-range lengths of R, so the result does
not depend on the starts and stops of R, only on its lengths. -/
theorem shift_after_via_from_range (R P : SLStringRange) :
    SLStringRange.shift_after R P = SLStringRange.from_range P R.lengths
    ∧ (∀ R2 : SLStringRange, R2.lengths = R.lengths →
        SLStringRange.shift_after R2 P = SLStringRange.shift_after R P) := by
  constructor
  · rfl
  · intro R2 h
    simp only [SLStringRange.lengths, SLLength.mk.injEq] at h
    obtain ⟨h1, h2, h3, h4⟩ := h
    simp [SLStringRange.shift_after, h1, h2, h3, h4]

/-- Witness for C10: two ranges with the same lengths but different
starts shift identically after the zero range. -/
theorem shift_after_via_from_range_witness :
    SLStringRange.shift_after (SLStringRange.from_point 9 ⟨1, 2, 3, 4⟩) SLStringRange.zero
      = SLStringRange.shift_after (SLStringRange.from_point 0 ⟨1, 2, 3, 4⟩)
          SLStringRange.zero :=
  (shift_after_via_from_range (SLStringRange.from_point 0 ⟨1, 2, 3, 4⟩)
      SLStringRange.zero).2
    (SLStringRange.from_point 9 ⟨1, 2, 3, 4⟩) (by decide)

/-- C5 counterexample: with release-mode isize semantics, from_sta_len at
start 2 ^ 63 - 1 and len 2 silently wraps the stop to -(2 ^ 63) instead
of the exact value, and no error is signalled (the result is a plain
range); the claim that every operation rejects overflow with an explicit
error rather than silently wrapping is false of the code. -/
theorem from_sta_len_isize_silent_wrap :
    (SLRange.from_sta_len_isize (2 ^ 63 - 1) 2).stop = -(2 ^ 63)
    ∧ (SLRange.from_sta_len_isize (2 ^ 63 - 1) 2).stop ≠ (2 ^ 63 - 1) + 2 - 1 := by
  constructor <;> norm_num [SLRange.from_sta_len_isize, wrap64, Int.emod_emod_of_dvd]

/-- C5 amended: operations are total and signal no error; on overflow the
isize arithmetic silently wraps two's-complement modulo 2 ^ 64, and when
start + len stays strictly inside the signed 64-bit range the wrapping
constructor agrees exactly with the unbounded-integer constructor. -/
theorem from_sta_len_isize_exact (start len : Int)
    (h1 : -(2 ^ 63) < start + len) (h2 : start + len < 2 ^ 63) :
    SLRange.from_sta_len_isize start len = SLRange.from_sta_len start len := by
  unfold SLRange.from_sta_len_isize SLRange.from_sta_len
  rw [wrap64_eq_self (start + len) (by omega) h2,
    wrap64_eq_self (start + len - 1) (by omega) (by omega)]

/-- Witness for the amended C5 at start 3, len 4. -/
theorem from_sta_len_isize_exact_witness :
    SLRange.from_sta_len_isize 3 4 = SLRange.from_sta_len 3 4 :=
  from_sta_len_isize_exact 3 4 (by norm_num) (by norm_num)

theorem one_le_utf8CharLen (c : Char) : 1 ≤ utf8CharLen c := by
  unfold utf8CharLen
  split
  · omega
  split
  · omega
  split
  · omega
  · omega

theorem one_le_utf16CharLen (c : Char) : 1 ≤ utf16CharLen c := by
  unfold utf16CharLen
  split
  · omega
  · omega

theorem list_length_le_sum_map (f : Char → Nat) (h : ∀ c, 1 ≤ f c) :
    ∀ l : List Char, l.length ≤ (l.map f).sum := by
  intro l
  induction l with
  | nil => simp
  | cons a t ih =>
      simp only [List.length_cons, List.map_cons, List.sum_cons]
      have := h a
      omega

theorem length_le_flatten_length :
    ∀ s : SLText, SLText.WF s → s.length ≤ s.flatten.length := by
  intro s
  induction s with
  | nil => intro _; simp
  | cons c t ih =>
      intro hwf
      simp only [List.length_cons, List.flatten_cons, List.length_append]
      have hc : c ≠ [] := hwf c (by simp)
      have h1 : 1 ≤ c.length := List.length_pos.mpr hc
      have h2 := ih (fun x hx => hwf x (List.mem_cons_of_mem c hx))
      omega

/-- C3: for every well-formed text, the cluster count is at most the
scalar count, the scalar count is at most the byte count, and the scalar
count is at most the UTF-16 unit count. -/
theorem measure_counts_monotone (T : SLText) (h : SLText.WF T) :
    (SLLength.new T).char ≤ (SLLength.new T).code
    ∧ (SLLength.new T).code ≤ (SLLength.new T).byte
    ∧ (SLLength.new T).code ≤ (SLLength.new T).utf16 := by
  unfold SLLength.new
  dsimp only
  refine ⟨?_, ?_, ?_⟩
  · exact_mod_cast length_le_flatten_length T h
  · exact_mod_cast list_length_le_sum_map utf8CharLen one_le_utf8CharLen T.flatten
  · exact_mod_cast list_length_le_sum_map utf16CharLen one_le_utf16CharLen T.flatten

/-- Witness for C3 at the one-segment text holding the single scalar a. -/
theorem measure_counts_monotone_witness :
    (SLLength.new [['a']]).char ≤ (SLLength.new [['a']]).code
    ∧ (SLLength.new [['a']]).code ≤ (SLLength.new [['a']]).byte
    ∧ (SLLength.new [['a']]).code ≤ (SLLength.new [['a']]).utf16 :=
  measure_counts_monotone [['a']] (by unfold SLText.WF; decide)

theorem ranges_cons (s : SLText) (rest : List SLText) (r : SLStringRange) :
    Native.ranges (s :: rest) r =
      SLStringRange.from_range r (SLLength.new s)
        :: Native.ranges rest (SLStringRange.from_range r (SLLength.new s)) := rfl

theorem ranges_length (segs : List SLText) :
    ∀ r : SLStringRange, (Native.ranges segs r).length = segs.length := by
  induction segs with
  | nil => intro r; rfl
  | cons a rest ih =>
      intro r
      rw [ranges_cons]
      simp [ih]

theorem ranges_get_succ (segs : List SLText) :
    ∀ (r : SLStringRange) (i : Nat) (prev : SLStringRange) (s : SLText),
      (Native.ranges segs r)[i]? = some prev → segs[i + 1]? = some s →
      (Native.ranges segs r)[i + 1]? =
        some (SLStringRange.from_range prev (SLLength.new s)) := by
  induction segs with
  | nil =>
      intro r i prev s hp _
      simp [Native.ranges] at hp
  | cons a rest ih =>
      intro r i prev s hp hs
      rw [ranges_cons] at hp ⊢
      cases i with
      | zero =>
          simp only [List.getElem?_cons_zero, Option.some.injEq] at hp
          simp only [List.getElem?_cons_succ, List.getElem?_cons_zero] at hs ⊢
          cases rest with
          | nil => simp at hs
          | cons b rest2 =>
              simp only [List.getElem?_cons_zero, Option.some.injEq] at hs
              rw [ranges_cons]
              simp [← hp, ← hs]
      | succ j =>
          simp only [List.getElem?_cons_succ] at hp hs ⊢
          exact ih _ j prev s hp hs

theorem ranges_elem (segs : List SLText) :
    ∀ (r : SLStringRange) (i : Nat) (rng : SLStringRange),
      (Native.ranges segs r)[i]? = some rng →
      ∃ p s, segs[i]? = some s ∧ rng = SLStringRange.from_range p (SLLength.new s) := by
  induction segs with
  | nil =>
      intro r i rng h
      simp [Native.ranges] at h
  | cons a rest ih =>
      intro r i rng h
      rw [ranges_cons] at h
      cases i with
      | zero =>
          simp only [List.getElem?_cons_zero, Option.some.injEq] at h
          exact ⟨r, a, by simp, h.symm⟩
      | succ j =>
          simp only [List.getElem?_cons_succ] at h ⊢
          exact ih _ j rng h

/-- C1: the sequencer is the fold of from_range over the segments. The
output has one composite range per input segment, the empty input gives
the empty output, element 0 is from_range of the starting range and the
first measurement, every later element is from_range of the previous
output element and its own segment measurement, and an empty-text segment
still yields its own element, with all four lengths zero. -/
theorem ranges_chains (segs : List SLText) (start : SLStringRange) :
    (Native.ranges segs start).length = segs.length
    ∧ Native.ranges ([] : List SLText) start = []
    ∧ (∀ s : SLText, segs[0]? = some s →
        (Native.ranges segs start)[0]? =
          some (SLStringRange.from_range start (SLLength.new s)))
    ∧ (∀ (i : Nat) (prev : SLStringRange) (s : SLText),
        (Native.ranges segs start)[i]? = some prev → segs[i + 1]? = some s →
        (Native.ranges segs start)[i + 1]? =
          some (SLStringRange.from_range prev (SLLength.new s)))
    ∧ (∀ (i : Nat) (r2 : SLStringRange), segs[i]? = some ([] : SLText) →
        (Native.ranges segs start)[i]? = some r2 →
        r2.byte.length = 0 ∧ r2.code.length = 0
          ∧ r2.char.length = 0 ∧ r2.utf16.length = 0) := by
  refine ⟨ranges_length segs start, rfl, ?_, ranges_get_succ segs start, ?_⟩
  · intro s hs
    cases segs with
    | nil => simp at hs
    | cons a rest =>
        simp only [List.getElem?_cons_zero, Option.some.injEq] at hs
        rw [ranges_cons]
        simp [hs]
  · intro i r2 hseg hrng
    obtain ⟨p, s, hs, heq⟩ := ranges_elem segs start i r2 hrng
    rw [hseg] at hs
    obtain rfl : s = ([] : SLText) := by
      injection hs with h
      exact h.symm
    subst heq
    exact ⟨rfl, rfl, rfl, rfl⟩

/-- Witness for C1: a two-segment input whose second segment is empty
text, checked at indices 0 and 1 from the zero range. -/
theorem ranges_chains_witness :
    (Native.ranges [[['a']], ([] : SLText)] SLStringRange.zero)[1]? =
      some (SLStringRange.from_range
        (SLStringRange.from_range SLStringRange.zero (SLLength.new [['a']]))
        (SLLength.new ([] : SLText))) :=
  (ranges_chains [[['a']], ([] : SLText)] SLStringRange.zero).2.2.2.1 0
    (SLStringRange.from_range SLStringRange.zero (SLLength.new [['a']]))
    ([] : SLText) (by decide) (by decide)

/-- One-segment text holding the single scalar a. -/
def txtA : SLText := [['a']]

/-- One-cluster text for the accented letter: base e plus the combining
acute accent, two scalars forming one grapheme cluster. -/
def txtEAcc : SLText := [['e', '́']]

/-- One-cluster text holding the single CJK scalar for house. -/
def txtJia : SLText := [['家']]

/-- C8: sequencing the three concrete segments from the zero composite
range yields exactly three ranges with byte starts 0, 1, 4, byte stops
0, 3, 6, cluster starts 0, 1, 2 and cluster stops 0, 1, 2, with the
stated measurements of the second and third segments. -/
theorem ranges_concrete_example :
    (Native.ranges [txtA, txtEAcc, txtJia] SLStringRange.zero).length = 3
    ∧ (Native.ranges [txtA, txtEAcc, txtJia] SLStringRange.zero).map
        (fun x => x.byte.start) = [0, 1, 4]
    ∧ (Native.ranges [txtA, txtEAcc, txtJia] SLStringRange.zero).map
        (fun x => x.byte.stop) = [0, 3, 6]
    ∧ (Native.ranges [txtA, txtEAcc, txtJia] SLStringRange.zero).map
        (fun x => x.char.start) = [0, 1, 2]
    ∧ (Native.ranges [txtA, txtEAcc, txtJia] SLStringRange.zero).map
        (fun x => x.char.stop) = [0, 1, 2]
    ∧ SLLength.new txtEAcc = ⟨3, 2, 1, 2⟩
    ∧ SLLength.new txtJia = ⟨3, 1, 1, 1⟩ := by
  decide
